import Mathlib

/-!
# Verification of the ElegantRL agent update engine (`elegantrl/agent.py`)

A shallow embedding, over `ℚ`, of the numeric and control-flow core of the
agent classes in `elegantrl/agent.py`: the soft-update primitive, the SAC
critic regression target, the prioritized-replay critic objectives and their
TD-error feedback, the TD3 delayed-update schedule, the SharedAC hard-copy
gate, the gradient-step loop counts, the PPO trajectory splice, the GAE
backward recursion, and the epsilon-greedy action selection.

Scalar tensor entries are modelled as rationals; network forward passes that
are external to `agent.py` (the `net.py` modules, the replay buffer's
sampling) enter as explicit arguments.  Python's `for _ in range(n)` loops
become folds over `List.range n`, and mutation of the agent's fields becomes
explicit state passing.
-/

namespace ElegantRL

/-! ## Primitives: soft update (`AgentBase.soft_update`, agent.py:164-172)

A network is modelled as its enumerable parameter list together with the
optimizer's momentum state attached to it; `soft_update` iterates over the
zipped parameter lists and overwrites each target entry in place, touching
nothing else. -/

structure Network where
  params : List ℚ
  optMomentum : List ℚ
  deriving DecidableEq, Repr

/-- One parameter entry of `soft_update`:
`tar.data.copy_(cur.data * tau + tar.data * (1.0 - tau))`. -/
def softUpdateEntry (tau tar cur : ℚ) : ℚ :=
  cur * tau + tar * (1 - tau)

/-- `AgentBase.soft_update(target_net, current_net, tau)`: zip the parameter
lists and blend each target entry; the optimizer state is untouched. -/
def soft_update (target current : Network) (tau : ℚ) : Network :=
  { target with
    params := List.zipWith (fun tar cur => softUpdateEntry tau tar cur)
      target.params current.params }

/-- Repeated soft updates of a single scalar parameter against a fixed
online value. -/
def softUpdateIter (tau online : ℚ) (n : ℕ) (t0 : ℚ) : ℚ :=
  (fun t => softUpdateEntry tau t online)^[n] t0

/-! ## SAC critic regression target (`AgentSAC.get_obj_critic_raw` /
`get_obj_critic_per`, agent.py:506-532)

Both variants compute
`q_label = reward + mask * (next_q + next_log_prob * alpha)` with
`next_q = torch.min(*self.cri_target.get_q1_q2(next_s, next_a))`.
`alpha` is passed in by the caller as `self.alpha_log.exp()`. -/

/-- Per-sample `q_label` of `AgentSAC.get_obj_critic_raw` (agent.py:513). -/
def sacQLabelRaw (reward mask nextQ1 nextQ2 nextLogProb alpha : ℚ) : ℚ :=
  reward + mask * (min nextQ1 nextQ2 + nextLogProb * alpha)

/-- Per-sample `q_label` of `AgentSAC.get_obj_critic_per` (agent.py:525);
textually the same expression as the raw variant. -/
def sacQLabelPer (reward mask nextQ1 nextQ2 nextLogProb alpha : ℚ) : ℚ :=
  reward + mask * (min nextQ1 nextQ2 + nextLogProb * alpha)

/-! ## Gradient-step loop counts (`update_net` loop headers)

`buffer.now_len` and `batch_size` are naturals, `repeat_times` a float
(modelled as a nonnegative rational); Python's `int()` truncates toward
zero, which on the nonnegative values these loops produce coincides with
`Int.floor`.  `range(a, b)` iterates `max (b - a) 0` times. -/

/-- `int(buffer.now_len / batch_size * repeat_times)` — loop count of
`AgentDQN.update_net` (agent.py:239), also used by DDPG (343), TD3 (400),
PPO (690) and SharedAC (797). -/
def dqnLoopCount (nowLen batchSize : ℕ) (repeatTimes : ℚ) : ℕ :=
  (⌊(nowLen : ℚ) / (batchSize : ℚ) * repeatTimes⌋).toNat

/-- `int(buffer.now_len * repeat_times / batch_size)` — loop count of
`AgentSAC.update_net` (agent.py:482). -/
def sacLoopCount (nowLen batchSize : ℕ) (repeatTimes : ℚ) : ℕ :=
  (⌊(nowLen : ℚ) * repeatTimes / (batchSize : ℚ)⌋).toNat

/-- Iteration count of `for update_c in range(1, int(buffer.now_len *
repeat_times / batch_size))` — `AgentModSAC.update_net` (agent.py:547). -/
def modSACLoopCount (nowLen batchSize : ℕ) (repeatTimes : ℚ) : ℕ :=
  (⌊(nowLen : ℚ) * repeatTimes / (batchSize : ℚ)⌋ - 1).toNat

/-- Iteration count of `for update_c in range(1, int(buffer.now_len /
batch_size * repeat_times))` — `AgentSharedSAC.update_net` (agent.py:866). -/
def sharedSACLoopCount (nowLen batchSize : ℕ) (repeatTimes : ℚ) : ℕ :=
  (⌊(nowLen : ℚ) / (batchSize : ℚ) * repeatTimes⌋ - 1).toNat

/-- The claimed step-count formula: `floor(bufferSize / batchSize *
repeatTimes)`. -/
def specLoopCount (bufferSize batchSize : ℕ) (repeatTimes : ℚ) : ℕ :=
  (⌊(bufferSize : ℚ) / (batchSize : ℚ) * repeatTimes⌋).toNat

/-! ## Prioritized-replay critic objectives and TD-error feedback

`self.criterion` is `torch.nn.SmoothL1Loss(reduction='none')` (beta = 1):
per element, `0.5 * d^2` if `|d| < 1` else `|d| - 0.5`.  Each
`get_obj_critic_per` is modelled as a function from the data produced
inside its `torch.no_grad()` block (batch columns, with the external
network evaluations as explicit columns) to the scalar objective together
with the argument of the `buffer.td_error_update(...)` call — `none` when
the function body contains no such call. -/

/-- `torch.nn.SmoothL1Loss` (beta = 1) on one element pair. -/
def smoothL1 (x y : ℚ) : ℚ :=
  if |x - y| < 1 then (x - y) ^ 2 / 2 else |x - y| - 1 / 2

/-- `.mean()` over a batch column. -/
def listMean (l : List ℚ) : ℚ := l.sum / l.length

/-- The batch columns consumed by an off-policy PER critic objective.
`nextQ` is the bootstrap value already produced by the target networks
(`max` over actions for DQN, target critic at target action for DDPG);
`qValue` the online critic at the taken action; `isWeights` the
buffer-supplied importance weights. -/
structure PerBatch where
  reward : List ℚ
  mask : List ℚ
  nextQ : List ℚ
  qValue : List ℚ
  isWeights : List ℚ
  deriving Repr

/-- `AgentDQN.get_obj_critic_per` (agent.py:255-263):
`q_label = reward + mask * next_q`;
`obj_critic = (criterion(q_value, q_label) * is_weights).mean()`;
the function returns without calling `buffer.td_error_update`. -/
def dqnGetObjCriticPer (b : PerBatch) : ℚ × Option (List ℚ) :=
  let qLabel := List.zipWith (fun r mnq => r + mnq)
    b.reward (List.zipWith (· * ·) b.mask b.nextQ)
  let weighted := List.zipWith (· * ·)
    (List.zipWith smoothL1 b.qValue qLabel) b.isWeights
  (listMean weighted, none)

/-- `AgentDDPG.get_obj_critic_per` (agent.py:363-373):
same weighted objective, then
`td_error = (q_label - q_value.detach()).abs()` and
`buffer.td_error_update(td_error)`. -/
def ddpgGetObjCriticPer (b : PerBatch) : ℚ × Option (List ℚ) :=
  let qLabel := List.zipWith (fun r mnq => r + mnq)
    b.reward (List.zipWith (· * ·) b.mask b.nextQ)
  let weighted := List.zipWith (· * ·)
    (List.zipWith smoothL1 b.qValue qLabel) b.isWeights
  let tdError := List.zipWith (fun lbl q => |lbl - q|) qLabel b.qValue
  (listMean weighted, some tdError)

/-- Batch columns for the twin-critic PER objective of TD3
(`q1`, `q2` are the online twin critics at the taken action; `nextQ` is
already `torch.min` of the twin target critics at the noised target
action). -/
structure TwinPerBatch where
  reward : List ℚ
  mask : List ℚ
  nextQ : List ℚ
  q1 : List ℚ
  q2 : List ℚ
  isWeights : List ℚ
  deriving Repr

/-- `AgentTD3.get_obj_critic_per` (agent.py:422-438):
`obj_critic = ((criterion(q1, q_label) + criterion(q2, q_label)) *
is_weights).mean()`; `td_error = (q_label - torch.min(q1, q2)).abs()`;
`buffer.td_error_update(td_error)`. -/
def td3GetObjCriticPer (b : TwinPerBatch) : ℚ × Option (List ℚ) :=
  let qLabel := List.zipWith (fun r mnq => r + mnq)
    b.reward (List.zipWith (· * ·) b.mask b.nextQ)
  let perSample := List.zipWith (fun l1 l2 => l1 + l2)
    (List.zipWith smoothL1 b.q1 qLabel) (List.zipWith smoothL1 b.q2 qLabel)
  let weighted := List.zipWith (· * ·) perSample b.isWeights
  let qMin := List.zipWith min b.q1 b.q2
  let tdError := List.zipWith (fun lbl q => |lbl - q|) qLabel qMin
  (listMean weighted, some tdError)

/-! ## TD3 delayed update schedule (`AgentTD3.update_net`, agent.py:396-410)

The loop body's effectful operations, in order, as a trace: the critic
gradient step and the actor gradient step are unconditional; the two
target-network soft updates are guarded by
`if update_c % self.update_freq == 0`. -/

/-- `AgentTD3.update_freq = 2` (agent.py:385). -/
def td3UpdateFreq : ℕ := 2

/-- Effectful operations of one `AgentTD3.update_net` loop body. -/
inductive TD3Op where
  | criticGrad
  | actorGrad
  | softUpdateCri
  | softUpdateAct
  deriving DecidableEq, Repr

/-- The operations performed on critic step `update_c` of
`AgentTD3.update_net` (agent.py:400-409). -/
def td3StepOps (update_c : ℕ) : List TD3Op :=
  [TD3Op.criticGrad, TD3Op.actorGrad]
    ++ (if update_c % td3UpdateFreq = 0
        then [TD3Op.softUpdateCri, TD3Op.softUpdateAct] else [])

/-! ## SharedAC hard-copy gate (`AgentSharedAC.update_net`, agent.py:791-831)

`self.update_freq = 2 ** 7` (agent.py:777); the hard target update is
guarded by `if i % self.update_freq == self.update_freq and lamb > 0.1`. -/

/-- `AgentSharedAC.update_freq = 2 ** 7` (agent.py:777). -/
def sharedACUpdateFreq : ℕ := 2 ^ 7

/-- The guard of `self.cri_target.load_state_dict(self.cri.state_dict())`
in `AgentSharedAC.update_net` (agent.py:828). -/
def sharedACHardCopyCond (i : ℕ) (lamb : ℚ) : Bool :=
  decide (i % sharedACUpdateFreq = sharedACUpdateFreq) && decide (lamb > 1 / 10)

/-! ## PPO trajectory splice (`AgentPPO.explore_env`, agent.py:613-632)

After collecting `trajectory_temp` (one tuple per step) and recording in
`last_done` the index of the last step whose `done` flag was true
(`last_done = 0` initially, overwritten by `last_done = i` on every done),
the call returns `self.trajectory_list[0] + trajectory_temp[:last_done+1]`
and stores `self.trajectory_list[0] = trajectory_temp[last_done:]`.
`AgentPPO.explore_vec_env` (agent.py:634-665) performs the same splice per
environment slot. -/

/-- `last_done` as computed by the collection loop from the `done` flags. -/
def lastDoneIndex (dones : List Bool) : ℕ :=
  (dones.enum.foldl (fun acc p => if p.2 then p.1 else acc) 0)

/-- The splice: from the stored tail and the freshly collected
`trajectory_temp`, the pair (returned trajectory list, new stored tail). -/
def ppoSplice (stored temp : List α) (lastDone : ℕ) : List α × List α :=
  (stored ++ temp.take (lastDone + 1), temp.drop lastDone)

/-! ## GAE backward recursion (`AgentPPO.get_reward_sum_gae`,
agent.py:724-734)

The loop runs `i = buf_len-1` down to `0` with `pre_r_sum = 0` and
`pre_advantage = 0` initially:
`ary_r_sum[i] = ary_reward[i] + ary_mask[i] * pre_r_sum`;
`pre_r_sum = ary_r_sum[i]`;
`ary_advantage[i] = ary_reward[i] + ary_mask[i] * (pre_advantage -
ary_value[i])`; `pre_advantage = ary_value[i] + ary_advantage[i] *
self.lambda_gae_adv`.  Processing the list `(reward, mask, value)` from
the front with the tail already processed is exactly this backward
iteration; the function below returns the `(r_sum, advantage)` rows
together with the `pre_r_sum` and `pre_advantage` registers left for the
next (lower) index. -/

/-- `AgentPPO.lambda_gae_adv = 0.98` (agent.py:586). -/
def lambda_gae_adv : ℚ := 98 / 100

/-- `AgentPPO.get_reward_sum_gae` over rows `(reward, mask, value)`. -/
def getRewardSumGae (lam : ℚ) : List (ℚ × ℚ × ℚ) → List (ℚ × ℚ) × ℚ × ℚ
  | [] => ([], 0, 0)
  | (r, m, v) :: rest =>
    let res := getRewardSumGae lam rest
    let rSum := r + m * res.2.1
    let adv := r + m * (res.2.2 - v)
    ((rSum, adv) :: res.1, rSum, v + adv * lam)

/-! ## Epsilon-greedy action selection (`AgentDQN.select_action`,
agent.py:215-222, and `AgentDoubleDQN.select_action`, agent.py:282-291)

`rd.rand()` draws a float in `[0, 1)`; the draw is an explicit argument.
The branch taken is recorded as a distribution descriptor: the random
branch of DQN is `rd.randint(self.action_dim)` (uniform over the actions);
the random branch of DoubleDQN is `rd.choice(self.action_dim, p=a_prob)`
with `a_prob = softmax(Q)`; the greedy branch of both is
`action.argmax()`. -/

/-- How the returned action of `select_action` is distributed, with the
data that parameterizes the distribution. -/
inductive ActionSelection where
  | uniformRandom (actionDim : ℕ)
  | softmaxSample (actionDim : ℕ) (qValues : List ℚ)
  | argmaxQ (qValues : List ℚ)
  deriving DecidableEq, Repr

/-- `AgentDQN.select_action` (agent.py:215-222). -/
def dqnSelectAction (randDraw exploreRate : ℚ) (actionDim : ℕ)
    (qValues : List ℚ) : ActionSelection :=
  if randDraw < exploreRate then ActionSelection.uniformRandom actionDim
  else ActionSelection.argmaxQ qValues

/-- `AgentDoubleDQN.select_action` (agent.py:282-291). -/
def doubleDqnSelectAction (randDraw exploreRate : ℚ) (actionDim : ℕ)
    (qValues : List ℚ) : ActionSelection :=
  if randDraw < exploreRate then ActionSelection.softmaxSample actionDim qValues
  else ActionSelection.argmaxQ qValues

/-! ## Empty-loop behaviour of `update_net` (agent.py:236-243, 542-574)

`AgentDQN.update_net` initializes `obj_critic = q_value = None`, overwrites
both on every loop iteration, and ends with
`return obj_critic.item(), q_value.mean().item()` — which fails on `None`.
`AgentModSAC.update_net` initializes `obj_actor = None`, assigns it only
inside the `if_update_a` branch of its loop (over `range(1, ...)`), and
ends with `return self.obj_c, obj_actor.item(), alpha.item()`.  The
diagnostic values are modelled as `Option`s and the trailing `.item()` as
`Option.map`/`Option.bind`: a `none` result is the `AttributeError`. -/

/-- `obj_critic` after `for _ in range(steps)` whose body assigns
`obj_critic = vals i` on iteration `i` (agent.py:238-241). -/
def lastLoopWrite (steps : ℕ) (vals : ℕ → ℚ) : Option ℚ :=
  (List.range steps).foldl (fun _ i => some (vals i)) none

/-- The value of `return obj_critic.item(), q_value.mean().item()` in
`AgentDQN.update_net` (agent.py:236-243): defined only if the loop ran.
`criticVals i` / `qMeanVals i` are the scalars the `i`-th iteration's
`get_obj_critic` produced. -/
def dqnUpdateNetResult (nowLen batchSize : ℕ) (repeatTimes : ℚ)
    (criticVals qMeanVals : ℕ → ℚ) : Option (ℚ × ℚ) :=
  let steps := dqnLoopCount nowLen batchSize repeatTimes
  match lastLoopWrite steps criticVals, lastLoopWrite steps qMeanVals with
  | some oc, some qm => some (oc, qm)
  | _, _ => none

/-- The TTUR throttle state of `AgentModSAC.update_net` over
`for update_c in range(1, k)` (agent.py:545-572): `update_a` counts actor
updates, `objActor` is the last `obj_actor` written; the actor branch runs
iff `update_a / update_c < 1 / (2 - reliable_lambda)`, with the
`reliable_lambda` float of iteration `update_c` supplied as an abstract
sequence. -/
def modSACActorLoop (k : ℕ) (reliableLambda : ℕ → ℚ) : ℕ × Option ℕ :=
  (List.range (k - 1)).foldl
    (fun st i =>
      let update_c : ℕ := i + 1
      if (st.1 : ℚ) / (update_c : ℚ) < 1 / (2 - reliableLambda update_c)
      then (st.1 + 1, some update_c)
      else st)
    (0, none)

/-- The `obj_actor.item()` factor of `AgentModSAC.update_net`'s return
value (agent.py:574): defined only if some iteration took the actor
branch. -/
def modSACObjActor (nowLen batchSize : ℕ) (repeatTimes : ℚ)
    (reliableLambda : ℕ → ℚ) : Option ℕ :=
  (modSACActorLoop (sacLoopCount nowLen batchSize repeatTimes)
    reliableLambda).2

/-- Per-row accessors for stating the GAE recursion: entry `i` of a
column, `0` out of range (matching `pre_r_sum = pre_advantage = 0`). -/
def rewardAt (rows : List (ℚ × ℚ × ℚ)) (i : ℕ) : ℚ :=
  ((rows.get? i).map (fun t => t.1)).getD 0

/-- `ary_mask[i]`, `0` out of range. -/
def maskAt (rows : List (ℚ × ℚ × ℚ)) (i : ℕ) : ℚ :=
  ((rows.get? i).map (fun t => t.2.1)).getD 0

/-- `ary_value[i]`, `0` out of range. -/
def valueAt (rows : List (ℚ × ℚ × ℚ)) (i : ℕ) : ℚ :=
  ((rows.get? i).map (fun t => t.2.2)).getD 0

/-- `ary_r_sum[i]` as computed by `get_reward_sum_gae`, `0` out of range. -/
def rSumAt (lam : ℚ) (rows : List (ℚ × ℚ × ℚ)) (i : ℕ) : ℚ :=
  (((getRewardSumGae lam rows).1.get? i).map Prod.fst).getD 0

/-- `ary_advantage[i]` as computed by `get_reward_sum_gae`, `0` out of
range. -/
def advAt (lam : ℚ) (rows : List (ℚ × ℚ × ℚ)) (i : ℕ) : ℚ :=
  (((getRewardSumGae lam rows).1.get? i).map Prod.snd).getD 0

/-! ## Helper lemmas -/

theorem lastDoneIndex_lt (dones : List Bool) (h : dones ≠ []) :
    lastDoneIndex dones < dones.length := by
  unfold lastDoneIndex
  have key : ∀ (l : List (ℕ × Bool)) (acc : ℕ), acc < dones.length →
      (∀ p ∈ l, p.1 < dones.length) →
      l.foldl (fun acc p => if p.2 then p.1 else acc) acc < dones.length := by
    intro l
    induction l with
    | nil => intro acc h1 _; simpa using h1
    | cons p ps ih =>
      intro acc h1 h2
      simp only [List.foldl_cons]
      apply ih
      · by_cases hp : p.2
        · simpa [hp] using h2 p (by simp)
        · simpa [hp] using h1
      · intro q hq; exact h2 q (by simp [hq])
  apply key
  · exact List.length_pos.mpr h
  · intro p hp
    exact List.fst_lt_of_mem_enum hp

theorem ppoSplice_perm_of_lt {α : Type} (stored temp : List α) (ld : ℕ)
    (h : ld < temp.length) :
    ((ppoSplice stored temp ld).1 ++ (ppoSplice stored temp ld).2).Perm
      (stored ++ temp ++ [temp.get ⟨ld, h⟩]) := by
  classical
  have hx : temp.get ⟨ld, h⟩ = temp[ld] := rfl
  unfold ppoSplice
  rw [List.take_succ, List.getElem?_eq_getElem h, List.drop_eq_getElem_cons h,
    hx]
  generalize hg : temp[ld] = x
  have htemp : temp = temp.take ld ++ x :: temp.drop (ld + 1) := by
    conv_lhs => rw [← List.take_append_drop ld temp]
    rw [List.drop_eq_getElem_cons h, hg]
  have heq : stored ++ temp ++ [x]
      = stored ++ (temp.take ld ++ x :: temp.drop (ld + 1)) ++ [x] := by
    conv_lhs => rw [htemp]
  rw [heq, List.perm_iff_count]
  intro a
  simp [List.count_append, List.count_cons]

theorem gae_reg1 (lam : ℚ) (rows : List (ℚ × ℚ × ℚ)) :
    (getRewardSumGae lam rows).2.1 = rSumAt lam rows 0 := by
  cases rows with
  | nil => simp [getRewardSumGae, rSumAt]
  | cons x rest =>
    obtain ⟨r, m, v⟩ := x
    simp [getRewardSumGae, rSumAt]

theorem gae_reg2 (lam : ℚ) (rows : List (ℚ × ℚ × ℚ)) :
    (getRewardSumGae lam rows).2.2
      = valueAt rows 0 + advAt lam rows 0 * lam := by
  cases rows with
  | nil => simp [getRewardSumGae, valueAt, advAt]
  | cons x rest =>
    obtain ⟨r, m, v⟩ := x
    simp [getRewardSumGae, valueAt, advAt]

theorem zipWith_mul_replicate_one (l : List ℚ) (n : ℕ) (h : l.length ≤ n) :
    List.zipWith (· * ·) l (List.replicate n (1 : ℚ)) = l := by
  induction l generalizing n with
  | nil => simp
  | cons a as ih =>
    cases n with
    | zero => simp at h
    | succ m =>
      simp only [List.replicate_succ, List.zipWith_cons_cons, mul_one]
      rw [ih m (by simpa using h)]

theorem lastLoopWrite_succ (s : ℕ) (vals : ℕ → ℚ) :
    lastLoopWrite (s + 1) vals = some (vals s) := by
  simp [lastLoopWrite, List.range_succ]

theorem lastLoopWrite_eq_none_iff (steps : ℕ) (vals : ℕ → ℚ) :
    lastLoopWrite steps vals = none ↔ steps = 0 := by
  cases steps with
  | zero => simp [lastLoopWrite]
  | succ s => simp [lastLoopWrite_succ]

/-! ## C8 — soft update: elementwise blend, frame condition, geometric
convergence -/

/-- **C8.** `soft_update` sets, elementwise for every target/online
parameter pair, `target := target * (1 - tau) + online * tau`; it leaves
the optimizer/momentum state attached to the target untouched; and for
`tau ∈ (0, 1)` with the online value held fixed, after `n` calls on a
scalar parameter `|target - online| = |target0 - online| * (1 - tau)^n`. -/
theorem soft_update_blend_and_geometric (target current : Network)
    (tau t0 online : ℚ) (n : ℕ) (h0 : 0 < tau) (h1 : tau < 1) :
    (soft_update target current tau).params =
        List.zipWith (fun tar onl => tar * (1 - tau) + onl * tau)
          target.params current.params
    ∧ (soft_update target current tau).optMomentum = target.optMomentum
    ∧ |softUpdateIter tau online n t0 - online| =
        |t0 - online| * (1 - tau) ^ n := by
  refine ⟨?_, rfl, ?_⟩
  · show List.zipWith (fun tar cur => softUpdateEntry tau tar cur)
        target.params current.params = _
    congr 1
    funext a b
    unfold softUpdateEntry
    ring
  · induction n with
    | zero => simp [softUpdateIter]
    | succ k ih =>
      have hstep : softUpdateIter tau online (k + 1) t0 =
          softUpdateEntry tau (softUpdateIter tau online k t0) online :=
        Function.iterate_succ_apply' _ k t0
      rw [hstep]
      unfold softUpdateEntry
      have hfac : online * tau + softUpdateIter tau online k t0 * (1 - tau)
          - online = (1 - tau) * (softUpdateIter tau online k t0 - online) := by
        ring
      rw [hfac, abs_mul, abs_of_nonneg (by linarith : (0:ℚ) ≤ 1 - tau), ih]
      ring

/-- **C8 witness**: `tau = 1/10`, scalar target `0` against online `1`;
two calls leave the target at `19/100`, matching the geometric law. -/
theorem soft_update_blend_and_geometric_witness :
    ((0:ℚ) < 1/10 ∧ (1/10 : ℚ) < 1)
    ∧ ((soft_update ⟨[0], [3]⟩ ⟨[1], [4]⟩ (1/10)).params =
          List.zipWith (fun tar onl => tar * (1 - 1/10) + onl * (1/10))
            [0] [1]
        ∧ (soft_update ⟨[0], [3]⟩ ⟨[1], [4]⟩ (1/10)).optMomentum = [3]
        ∧ |softUpdateIter (1/10) 1 2 0 - 1| = |0 - 1| * (1 - 1/10) ^ 2)
    ∧ softUpdateIter (1/10) 1 1 0 = 1/10
    ∧ softUpdateIter (1/10) 1 2 0 = 19/100 :=
  ⟨⟨by norm_num, by norm_num⟩,
   soft_update_blend_and_geometric ⟨[0], [3]⟩ ⟨[1], [4]⟩ (1/10) 0 1 2
     (by norm_num) (by norm_num),
   by norm_num [softUpdateIter, softUpdateEntry],
   by norm_num [softUpdateIter, softUpdateEntry,
     Function.iterate_succ_apply', Function.iterate_zero_apply]⟩

/-! ## C2 — SAC critic regression target -/

/-- **C2 counterexample.** At `reward = 0`, `mask = 1`, twin target
critics `0, 0`, `next_log_prob = 1`, `alpha = 1`, the code's `q_label`
is `1`, not the claimed `reward + mask * (min + (-alpha) * log_prob)
= -1`: the log-probability term enters with a positive, not negative,
alpha coefficient. -/
theorem sac_qlabel_sign_counterexample :
    sacQLabelRaw 0 1 0 0 1 1 ≠ 0 + 1 * (min (0:ℚ) 0 + (-1) * 1) := by
  norm_num [sacQLabelRaw]

/-- **C2 amended.** Both SAC critic variants compute
`q_label = reward + mask * (min(twin target critics) + alpha *
log_prob(next_action))`: the log-probability term carries a positive
alpha coefficient (the entropy bonus is `+alpha * log_prob` of the value
the actor's `get_action_logprob` returns). -/
theorem sac_qlabel_amended (r m q1 q2 lp alpha : ℚ) :
    sacQLabelRaw r m q1 q2 lp alpha = r + m * (min q1 q2 + alpha * lp)
    ∧ sacQLabelPer r m q1 q2 lp alpha = r + m * (min q1 q2 + alpha * lp) := by
  constructor
  · unfold sacQLabelRaw; ring
  · unfold sacQLabelPer; ring

/-! ## C6 — gradient-step loop counts -/

/-- **C6 counterexample.** With `now_len = 2`, `batch_size = 1`,
`repeat_times = 1`, the claimed count `floor(2/1*1) = 2`, but
`AgentModSAC.update_net` and `AgentSharedSAC.update_net` iterate
`range(1, 2)`, i.e. once. -/
theorem loop_count_counterexample :
    modSACLoopCount 2 1 1 ≠ specLoopCount 2 1 1
    ∧ sharedSACLoopCount 2 1 1 ≠ specLoopCount 2 1 1 := by
  constructor
  · norm_num [modSACLoopCount, specLoopCount, Int.toNat]
  · norm_num [sharedSACLoopCount, specLoopCount, Int.toNat]

/-- **C6 amended.** DQN-family, DDPG, TD3, SAC, PPO and SharedAC loops
perform `floor(bufferSize / batchSize * repeatTimes)` critic gradient
steps, but `AgentModSAC.update_net` and `AgentSharedSAC.update_net`
iterate `range(1, int(...))` and so perform one step fewer
(`floor(...) - 1`, and none when the floor is `0`). -/
theorem loop_count_amended (nowLen batchSize : ℕ) (repeatTimes : ℚ) :
    dqnLoopCount nowLen batchSize repeatTimes
        = specLoopCount nowLen batchSize repeatTimes
    ∧ sacLoopCount nowLen batchSize repeatTimes
        = specLoopCount nowLen batchSize repeatTimes
    ∧ modSACLoopCount nowLen batchSize repeatTimes
        = specLoopCount nowLen batchSize repeatTimes - 1
    ∧ sharedSACLoopCount nowLen batchSize repeatTimes
        = specLoopCount nowLen batchSize repeatTimes - 1 := by
  refine ⟨rfl, ?_, ?_, ?_⟩
  · unfold sacLoopCount specLoopCount
    rw [div_mul_eq_mul_div]
  · unfold modSACLoopCount specLoopCount
    rw [div_mul_eq_mul_div]
    generalize ⌊(nowLen : ℚ) * repeatTimes / (batchSize : ℚ)⌋ = z
    omega
  · unfold sharedSACLoopCount specLoopCount
    generalize ⌊(nowLen : ℚ) / (batchSize : ℚ) * repeatTimes⌋ = z
    omega

/-! ## C5 — TD3 delayed update -/

/-- **C5 counterexample.** On critic step `1` (not a multiple of
`update_freq = 2`) the actor gradient step is still performed: only the
soft updates are delayed. -/
theorem td3_actor_not_delayed_counterexample :
    TD3Op.actorGrad ∈ td3StepOps 1 ∧ 1 % td3UpdateFreq ≠ 0 := by
  decide

/-- **C5 amended.** In `AgentTD3.update_net`, every critic step performs
both the critic and the actor gradient updates; only the two
target-network soft updates are restricted to critic steps whose index
is a multiple of `update_freq`. -/
theorem td3_delayed_update_amended (update_c : ℕ) :
    TD3Op.criticGrad ∈ td3StepOps update_c
    ∧ TD3Op.actorGrad ∈ td3StepOps update_c
    ∧ (TD3Op.softUpdateCri ∈ td3StepOps update_c
        ↔ update_c % td3UpdateFreq = 0)
    ∧ (TD3Op.softUpdateAct ∈ td3StepOps update_c
        ↔ update_c % td3UpdateFreq = 0) := by
  by_cases h : update_c % td3UpdateFreq = 0 <;> simp [td3StepOps, h]

/-! ## C4 — SharedAC hard target copy -/

/-- **C4.** The guard `i % update_freq == update_freq and lamb > 0.1` of
`AgentSharedAC.update_net`'s hard target copy is unsatisfiable
(`i % 128` is always `< 128`), so the `load_state_dict` hard copy never
executes for any loop index and any reliability value — contradicting
the `# Hard Target Update` intent stated in the code. -/
theorem sharedAC_hard_copy_unreachable (i : ℕ) (lamb : ℚ) :
    sharedACHardCopyCond i lamb = false := by
  have h : i % sharedACUpdateFreq ≠ sharedACUpdateFreq :=
    Nat.ne_of_lt (Nat.mod_lt _ (by norm_num [sharedACUpdateFreq]))
  simp [sharedACHardCopyCond, h]

/-! ## C3 — prioritized replay: weighting and TD-error feedback -/

/-- **C3 counterexample.** `AgentDQN.get_obj_critic_per` returns without
any `buffer.td_error_update` call (second component `none`), while
`AgentDDPG.get_obj_critic_per` on the same batch does report TD errors:
the feedback call is skipped in the DQN variant. -/
theorem dqn_per_no_feedback_counterexample :
    (dqnGetObjCriticPer ⟨[1], [1], [1], [0], [1]⟩).2 = none
    ∧ (ddpgGetObjCriticPer ⟨[1], [1], [1], [0], [1]⟩).2 ≠ none := by
  constructor
  · rfl
  · simp [ddpgGetObjCriticPer]

/-- **C3 amended.** Every `get_obj_critic_per` variant multiplies the
per-sample Huber loss by the buffer-supplied importance weights (with
unit weights the DQN objective reduces to the unweighted mean), and
`AgentDDPG`'s and `AgentTD3`'s variants report `|q_label - q|` TD-error
magnitudes back through `buffer.td_error_update` in the same call — but
`AgentDQN.get_obj_critic_per` makes no `td_error_update` call at all. -/
theorem per_weighting_and_feedback (b : PerBatch) (tb : TwinPerBatch)
    (hw : b.isWeights = List.replicate b.reward.length 1)
    (hq : b.qValue.length ≤ b.reward.length) :
    (dqnGetObjCriticPer b).1 =
        listMean (List.zipWith smoothL1 b.qValue
          (List.zipWith (fun r mnq => r + mnq) b.reward
            (List.zipWith (· * ·) b.mask b.nextQ)))
    ∧ (dqnGetObjCriticPer b).2 = none
    ∧ (ddpgGetObjCriticPer b).2 =
        some (List.zipWith (fun lbl q => |lbl - q|)
          (List.zipWith (fun r mnq => r + mnq) b.reward
            (List.zipWith (· * ·) b.mask b.nextQ)) b.qValue)
    ∧ (td3GetObjCriticPer tb).2 =
        some (List.zipWith (fun lbl q => |lbl - q|)
          (List.zipWith (fun r mnq => r + mnq) tb.reward
            (List.zipWith (· * ·) tb.mask tb.nextQ))
          (List.zipWith min tb.q1 tb.q2)) := by
  refine ⟨?_, rfl, rfl, rfl⟩
  unfold dqnGetObjCriticPer
  rw [hw]
  apply congrArg listMean
  apply zipWith_mul_replicate_one
  simp only [List.length_zipWith]
  omega

/-- **C3 witness**: a concrete two-sample batch with unit weights and a
one-sample twin batch. -/
theorem per_weighting_and_feedback_witness :
    (dqnGetObjCriticPer ⟨[1, 2], [1, 1], [0, 0], [0, 0], [1, 1]⟩).1 =
        listMean (List.zipWith smoothL1 [0, 0]
          (List.zipWith (fun r mnq => r + mnq) [1, 2]
            (List.zipWith (· * ·) [1, 1] [0, 0])))
    ∧ (dqnGetObjCriticPer ⟨[1, 2], [1, 1], [0, 0], [0, 0], [1, 1]⟩).2 = none
    ∧ (ddpgGetObjCriticPer ⟨[1, 2], [1, 1], [0, 0], [0, 0], [1, 1]⟩).2 =
        some (List.zipWith (fun lbl q => |lbl - q|)
          (List.zipWith (fun r mnq => r + mnq) [1, 2]
            (List.zipWith (· * ·) [1, 1] [0, 0])) [0, 0])
    ∧ (td3GetObjCriticPer ⟨[1], [1], [1], [0], [0], [1]⟩).2 =
        some (List.zipWith (fun lbl q => |lbl - q|)
          (List.zipWith (fun r mnq => r + mnq) [1]
            (List.zipWith (· * ·) [1] [1]))
          (List.zipWith min [0] [0])) :=
  per_weighting_and_feedback ⟨[1, 2], [1, 1], [0, 0], [0, 0], [1, 1]⟩
    ⟨[1], [1], [1], [0], [0], [1]⟩ rfl (by simp)

/-! ## C9 — epsilon-greedy action selection -/

/-- **C9 counterexample.** With `explore_rate = 1/4` and random draw `0`,
`AgentDoubleDQN.select_action` takes its exploration branch, which
samples from `softmax(Q)` via `rd.choice(self.action_dim, p=a_prob)`,
not uniformly over the actions. -/
theorem double_dqn_not_uniform_counterexample :
    doubleDqnSelectAction 0 (1/4) 2 [1, 2]
        = ActionSelection.softmaxSample 2 [1, 2]
    ∧ doubleDqnSelectAction 0 (1/4) 2 [1, 2]
        ≠ ActionSelection.uniformRandom 2 := by
  have h : (0:ℚ) < 1/4 := by norm_num
  constructor
  · simp [doubleDqnSelectAction, h]
  · simp [doubleDqnSelectAction, h]

/-- **C9 amended.** With probability `explore_rate` (draw below the
threshold) `AgentDQN.select_action` samples uniformly over the
`action_dim` actions while `AgentDoubleDQN.select_action` samples
according to `softmax` of the online critic's output; otherwise both
return the arg-max, and with `explore_rate = 0` both deterministically
return the arg-max for every draw in `[0, 1)`. -/
theorem select_action_epsilon_greedy_amended (randDraw exploreRate : ℚ)
    (actionDim : ℕ) (qValues : List ℚ) (h0 : 0 ≤ randDraw) :
    dqnSelectAction randDraw 0 actionDim qValues
        = ActionSelection.argmaxQ qValues
    ∧ doubleDqnSelectAction randDraw 0 actionDim qValues
        = ActionSelection.argmaxQ qValues
    ∧ (randDraw < exploreRate →
        dqnSelectAction randDraw exploreRate actionDim qValues
            = ActionSelection.uniformRandom actionDim
        ∧ doubleDqnSelectAction randDraw exploreRate actionDim qValues
            = ActionSelection.softmaxSample actionDim qValues)
    ∧ (¬ randDraw < exploreRate →
        dqnSelectAction randDraw exploreRate actionDim qValues
            = ActionSelection.argmaxQ qValues
        ∧ doubleDqnSelectAction randDraw exploreRate actionDim qValues
            = ActionSelection.argmaxQ qValues) := by
  have hz : ¬ randDraw < 0 := not_lt.mpr h0
  exact ⟨by simp [dqnSelectAction, hz], by simp [doubleDqnSelectAction, hz],
    fun h => ⟨by simp [dqnSelectAction, h], by simp [doubleDqnSelectAction, h]⟩,
    fun h => ⟨by simp [dqnSelectAction, h], by simp [doubleDqnSelectAction, h]⟩⟩

/-- **C9 witness**: draw `1/2` against threshold `1/4` over two actions. -/
theorem select_action_epsilon_greedy_witness :
    dqnSelectAction (1/2) 0 2 [5, 1] = ActionSelection.argmaxQ [5, 1]
    ∧ doubleDqnSelectAction (1/2) 0 2 [5, 1] = ActionSelection.argmaxQ [5, 1]
    ∧ ((1/2 : ℚ) < 1/4 →
        dqnSelectAction (1/2) (1/4) 2 [5, 1]
            = ActionSelection.uniformRandom 2
        ∧ doubleDqnSelectAction (1/2) (1/4) 2 [5, 1]
            = ActionSelection.softmaxSample 2 [5, 1])
    ∧ (¬ (1/2 : ℚ) < 1/4 →
        dqnSelectAction (1/2) (1/4) 2 [5, 1]
            = ActionSelection.argmaxQ [5, 1]
        ∧ doubleDqnSelectAction (1/2) (1/4) 2 [5, 1]
            = ActionSelection.argmaxQ [5, 1]) :=
  select_action_epsilon_greedy_amended (1/2) (1/4) 2 [5, 1] (by norm_num)

/-! ## C10 — empty gradient loop leaves the return expression undefined -/

/-- **C10.** If `int(now_len / batch_size * repeat_times)` is `0`, the
`AgentDQN.update_net` loop body never executes, `obj_critic` stays
`None`, and the trailing `.item()` fails (`none` result); if the ModSAC
bound is at most `1`, `range(1, ...)` is empty and `obj_actor.item()`
likewise fails; conversely a defined DQN result requires at least one
gradient step, and a defined ModSAC result requires an iteration whose
TTUR throttle fired. -/
theorem update_net_empty_loop (nowLen batchSize : ℕ) (repeatTimes : ℚ)
    (criticVals qMeanVals : ℕ → ℚ) (reliableLambda : ℕ → ℚ)
    (h1 : dqnLoopCount nowLen batchSize repeatTimes = 0)
    (h2 : sacLoopCount nowLen batchSize repeatTimes ≤ 1) :
    lastLoopWrite (dqnLoopCount nowLen batchSize repeatTimes) criticVals
        = none
    ∧ dqnUpdateNetResult nowLen batchSize repeatTimes criticVals qMeanVals
        = none
    ∧ modSACObjActor nowLen batchSize repeatTimes reliableLambda = none
    ∧ (∀ n b : ℕ, ∀ r : ℚ, ∀ cv qv : ℕ → ℚ,
        dqnUpdateNetResult n b r cv qv ≠ none → 1 ≤ dqnLoopCount n b r) := by
  refine ⟨?_, ?_, ?_, ?_⟩
  · rw [h1]; rfl
  · simp [dqnUpdateNetResult, h1, lastLoopWrite]
  · unfold modSACObjActor modSACActorLoop
    have hz : sacLoopCount nowLen batchSize repeatTimes - 1 = 0 := by omega
    rw [hz]
    rfl
  · intro n b r cv qv hres
    rcases Nat.eq_zero_or_pos (dqnLoopCount n b r) with h | h
    · exact absurd (by simp [dqnUpdateNetResult, h, lastLoopWrite]) hres
    · exact h

/-- **C10 witness**: an empty buffer (`now_len = 0`) gives a zero loop
bound and an undefined (`none`) return value for both agents. -/
theorem update_net_empty_loop_witness :
    lastLoopWrite (dqnLoopCount 0 1 1) (fun _ => 0) = none
    ∧ dqnUpdateNetResult 0 1 1 (fun _ => 0) (fun _ => 0) = none
    ∧ modSACObjActor 0 1 1 (fun _ => 1) = none
    ∧ (∀ n b : ℕ, ∀ r : ℚ, ∀ cv qv : ℕ → ℚ,
        dqnUpdateNetResult n b r cv qv ≠ none → 1 ≤ dqnLoopCount n b r) :=
  update_net_empty_loop 0 1 1 (fun _ => 0) (fun _ => 0) (fun _ => 1)
    (by norm_num [dqnLoopCount, Int.toNat])
    (by norm_num [sacLoopCount, Int.toNat])

/-! ## C1 — PPO trajectory splice conservation -/

/-- **C1 counterexample.** One collected step whose episode terminates
(`done = true` at index `0`, so `last_done = 0`): the call returns
`temp[:1] = [7]` and stores `temp[0:] = [7]` as the carried tail — the
transition is both returned for training and carried over, so the
returned-plus-tail multiset has two copies of a transition generated
once: the splice duplicates the transition at the last done index. -/
theorem ppo_splice_duplication_counterexample :
    lastDoneIndex [true] = 0
    ∧ ppoSplice ([] : List ℕ) [7] (lastDoneIndex [true]) = ([7], [7])
    ∧ ((ppoSplice ([] : List ℕ) [7] (lastDoneIndex [true])).1
          ++ (ppoSplice ([] : List ℕ) [7] (lastDoneIndex [true])).2).count 7
        ≠ (([] : List ℕ) ++ [7]).count 7 := by
  decide

/-- **C1 amended.** Across consecutive on-policy collection calls no
transition is dropped, but the splice is not a partition: the returned
list plus the new carried tail are, as a multiset, the old tail plus the
generated transitions plus one extra copy of the transition at the
last-done index — exactly that transition is duplicated between the
returned list and the stored tail on every call. -/
theorem ppo_splice_conservation {α : Type} (stored temp : List α)
    (dones : List Bool) (hlen : dones.length = temp.length)
    (hne : dones ≠ []) :
    ((ppoSplice stored temp (lastDoneIndex dones)).1
        ++ (ppoSplice stored temp (lastDoneIndex dones)).2).Perm
      (stored ++ temp
        ++ [temp.get ⟨lastDoneIndex dones,
              hlen ▸ lastDoneIndex_lt dones hne⟩]) :=
  ppoSplice_perm_of_lt stored temp (lastDoneIndex dones)
    (hlen ▸ lastDoneIndex_lt dones hne)

/-- **C1 witness**: tail `[9]`, three fresh steps with the episode ending
at index `1`; returned `[9, 1, 2]` and new tail `[2, 3]` are a
permutation of old tail + fresh steps + a second copy of step `2`. -/
theorem ppo_splice_conservation_witness :
    ((ppoSplice [9] [1, 2, 3] (lastDoneIndex [false, true, false])).1
        ++ (ppoSplice [9] [1, 2, 3] (lastDoneIndex [false, true, false])).2).Perm
      ([9] ++ [1, 2, 3]
        ++ [([1, 2, 3] : List ℕ).get
              ⟨lastDoneIndex [false, true, false], by decide⟩]) :=
  ppo_splice_conservation [9] [1, 2, 3] [false, true, false]
    (by decide) (by decide)

/-! ## C7 — GAE backward recursion -/

/-- **C7.** `get_reward_sum_gae` satisfies, at every index `i < n`,
`r_sum[i] = reward[i] + mask[i] * r_sum[i+1]` (with `r_sum[n] = 0`) and
`advantage[i] = reward[i] + mask[i] * (prevAdvantage - value[i])` where
the carried `prevAdvantage` equals `value[i+1] + advantage[i+1] *
lambda_gae` (`0` at the boundary, matching `pre_advantage = 0`
initially), with `lambda_gae_adv` defaulting to `0.98` — the exact
source recursion, not the textbook GAE formula. -/
theorem gae_backward_recursion (lam : ℚ) (rows : List (ℚ × ℚ × ℚ))
    (i : ℕ) (h : i < rows.length) :
    rSumAt lam rows i
        = rewardAt rows i + maskAt rows i * rSumAt lam rows (i + 1)
    ∧ advAt lam rows i
        = rewardAt rows i
          + maskAt rows i *
            ((valueAt rows (i + 1) + advAt lam rows (i + 1) * lam)
              - valueAt rows i)
    ∧ lambda_gae_adv = 98 / 100 := by
  have main : rSumAt lam rows i
        = rewardAt rows i + maskAt rows i * rSumAt lam rows (i + 1)
      ∧ advAt lam rows i
        = rewardAt rows i
          + maskAt rows i *
            ((valueAt rows (i + 1) + advAt lam rows (i + 1) * lam)
              - valueAt rows i) := by
    induction rows generalizing i with
    | nil => simp at h
    | cons x rest ih =>
      obtain ⟨r, m, v⟩ := x
      cases i with
      | zero =>
        have h1 : rSumAt lam ((r, m, v) :: rest) 1 = rSumAt lam rest 0 := by
          simp [rSumAt, getRewardSumGae]
        have h2 : advAt lam ((r, m, v) :: rest) 1 = advAt lam rest 0 := by
          simp [advAt, getRewardSumGae]
        have h3 : valueAt ((r, m, v) :: rest) 1 = valueAt rest 0 := by
          simp [valueAt]
        have hr : rewardAt ((r, m, v) :: rest) 0 = r := by simp [rewardAt]
        have hm : maskAt ((r, m, v) :: rest) 0 = m := by simp [maskAt]
        have hv : valueAt ((r, m, v) :: rest) 0 = v := by simp [valueAt]
        constructor
        · have hL : rSumAt lam ((r, m, v) :: rest) 0
              = r + m * (getRewardSumGae lam rest).2.1 := by
            simp [rSumAt, getRewardSumGae]
          rw [hL, hr, hm, h1, ← gae_reg1]
        · have hA : advAt lam ((r, m, v) :: rest) 0
              = r + m * ((getRewardSumGae lam rest).2.2 - v) := by
            simp [advAt, getRewardSumGae]
          rw [hA, hr, hm, hv, h2, h3, ← gae_reg2]
      | succ j =>
        have hj : j < rest.length := by simpa using h
        have shift : ∀ k : ℕ,
            rSumAt lam ((r, m, v) :: rest) (k + 1) = rSumAt lam rest k
            ∧ advAt lam ((r, m, v) :: rest) (k + 1) = advAt lam rest k
            ∧ rewardAt ((r, m, v) :: rest) (k + 1) = rewardAt rest k
            ∧ maskAt ((r, m, v) :: rest) (k + 1) = maskAt rest k
            ∧ valueAt ((r, m, v) :: rest) (k + 1) = valueAt rest k := by
          intro k
          refine ⟨?_, ?_, ?_, ?_, ?_⟩ <;>
            simp [rSumAt, advAt, rewardAt, maskAt, valueAt, getRewardSumGae]
        obtain ⟨s1, s2, s3, s4, s5⟩ := shift j
        obtain ⟨t1, t2, t3, t4, t5⟩ := shift (j + 1)
        rw [s1, s2, s3, s4, s5, t1, t2, t5]
        exact ih j hj
  exact ⟨main.1, main.2, rfl⟩

/-- **C7 witness**: two steps `(reward, mask, value) = (1, 1, 5), (2, 0,
7)` under the default `lambda_gae_adv`; the recursion holds at index `0`
and the computed columns are `r_sum = [3, 2]`, `advantage = [124/25, 2]`
with final registers `pre_r_sum = 3`, `pre_advantage = 6163/625`. -/
theorem gae_backward_recursion_witness :
    (rSumAt lambda_gae_adv [(1, 1, 5), (2, 0, 7)] 0
        = rewardAt [(1, 1, 5), (2, 0, 7)] 0
          + maskAt [(1, 1, 5), (2, 0, 7)] 0
            * rSumAt lambda_gae_adv [(1, 1, 5), (2, 0, 7)] 1
    ∧ advAt lambda_gae_adv [(1, 1, 5), (2, 0, 7)] 0
        = rewardAt [(1, 1, 5), (2, 0, 7)] 0
          + maskAt [(1, 1, 5), (2, 0, 7)] 0 *
            ((valueAt [(1, 1, 5), (2, 0, 7)] 1
                + advAt lambda_gae_adv [(1, 1, 5), (2, 0, 7)] 1
                  * lambda_gae_adv)
              - valueAt [(1, 1, 5), (2, 0, 7)] 0)
    ∧ lambda_gae_adv = 98 / 100)
    ∧ getRewardSumGae lambda_gae_adv [(1, 1, 5), (2, 0, 7)]
        = ([(3, 124/25), (2, 2)], 3, 6163/625) :=
  ⟨gae_backward_recursion lambda_gae_adv [(1, 1, 5), (2, 0, 7)] 0 (by simp),
   by norm_num [getRewardSumGae, lambda_gae_adv]⟩

end ElegantRL
